import Mathlib

/-!
# Verification of the MediMind backend (`backend/app.py`)

A shallow embedding of the backend's data model and operations, followed by
theorems settling the specification claims.

Modelling conventions:
* JSON values are the inductive type `Json`; Python truthiness is `Json.truthy`.
* The durable file `data.json` is a `Resource`: absent, corrupt (unreadable),
  or good with a `Store`.  `load_db`/`save_db` mirror the Python helpers;
  a read fault is `Except.error PersistFault.ioError` (Python `IOError`).
* The external inference service (`client.chat.completions.create`) is a
  parameter: a function from the data embedded in the prompt to
  `Except ServiceErr String` (the raw completion text, or a raised service
  exception).  `json.loads` is likewise a parameter
  `decode : String -> Option Json` (`none` = raised decode exception).
* `datetime.utcnow().isoformat() + "Z"` is a parameter `now : String`.
* A Python `try ... except Exception` block is an `Except PyExn` computation
  followed by a handler that maps every `PyExn` to the generic error response.
-/

namespace MediMind

/-- JSON values, as produced by Python's `json` module. -/
inductive Json where
  | null : Json
  | bool : Bool → Json
  | num : Int → Json
  | str : String → Json
  | arr : List Json → Json
  | obj : List (String × Json) → Json

/-- Python truthiness of a JSON value (`None`, `False`, `0`, `""`, `[]`, `{ }`
are falsy). -/
def Json.truthy : Json → Bool
  | .null => false
  | .bool b => b
  | .num n => n != 0
  | .str s => s != ""
  | .arr xs => !xs.isEmpty
  | .obj fs => !fs.isEmpty

/-- Python subscript `v[key]` on a decoded JSON value: returns the field of an
object, and `none` when the access raises (`KeyError` on a missing key,
`TypeError` on a non-object). -/
def Json.getKey : Json → String → Option Json
  | .obj fs, k => fs.lookup k
  | _, _ => none

/-- One entry of the event log (`add_event` builds exactly these fields).
`text` is a `Json` because `/process-text` stores `extraction["transcription_en"]`
verbatim, which the service does not guarantee to be a string. -/
structure Event where
  id : Nat
  type : String
  text : Json
  timestamp : String
  extra : Json

/-- The store persisted in `data.json`. -/
structure Store where
  events : List Event

/-- Python `IOError` from the durable storage layer. -/
inductive PersistFault where
  | ioError : PersistFault

/-- The durable backing resource for `data.json`. -/
inductive Resource where
  | absent : Resource
  | corrupt : Resource
  | good : Store → Resource

/-- `load_db` (app.py lines 40-44): missing file yields the empty store,
a corrupt file raises `IOError` from `json.load`. -/
def load_db : Resource → Except PersistFault Store
  | .absent => Except.ok ⟨[]⟩
  | .corrupt => Except.error PersistFault.ioError
  | .good db => Except.ok db

/-- `save_db` (app.py lines 47-49): full overwrite of the resource. -/
def save_db (db : Store) : Resource :=
  Resource.good db

/-- The id computed at app.py line 54:
`db["events"][-1]["id"] + 1 if db["events"] else 1`. -/
def next_id (events : List Event) : Nat :=
  match events.getLast? with
  | some e => e.id + 1
  | none => 1

/-- Python `extra or {ob}` at app.py line 61: a missing or falsy `extra`
becomes the empty object. -/
def extra_or_empty : Option Json → Json
  | some j => if j.truthy then j else Json.obj []
  | none => Json.obj []

/-- `add_event` (app.py lines 52-66): load, compute the next id, append the
new entry, save, return the entry. -/
def add_event (res : Resource) (event_type : String) (text : Json)
    (now : String) (extra : Option Json) :
    Except PersistFault (Event × Resource) :=
  match load_db res with
  | Except.error f => Except.error f
  | Except.ok db =>
    let entry : Event :=
      { id := next_id db.events, type := event_type, text := text,
        timestamp := now, extra := extra_or_empty extra }
    Except.ok (entry, save_db ⟨db.events ++ [entry]⟩)

/-- Index of the first character satisfying `p`, or `none`. -/
def firstIdx (p : Char → Bool) : List Char → Option Nat
  | [] => none
  | c :: cs => if p c then some 0 else (firstIdx p cs).map (· + 1)

/-- Index of the last character satisfying `p`, or `none`. -/
def lastIdx (p : Char → Bool) : List Char → Option Nat
  | [] => none
  | c :: cs =>
    match lastIdx p cs with
    | some j => some (j + 1)
    | none => if p c then some 0 else none

/-- The substring captured by `re.search` with the greedy brace pattern at
app.py line 73: from the first opening brace through the last closing brace,
when the latter comes strictly after the former; otherwise no match. -/
def braceSubstring (cs : List Char) : Option (List Char) :=
  match firstIdx (fun c => c == '{') cs, lastIdx (fun c => c == '}') cs with
  | some i, some j =>
    if i < j then some ((cs.drop i).take (j - i + 1)) else none
  | _, _ => none

/-- `parse_json_safe` (app.py lines 69-79): try a direct decode; on failure
decode the greedy brace-delimited substring; on any failure return `None`. -/
def parse_json_safe (decode : String → Option Json) (text : String) :
    Option Json :=
  match decode text with
  | some v => some v
  | none =>
    match braceSubstring text.toList with
    | some sub => decode (String.mk sub)
    | none => none

/-- Exceptions raised by the inference service call itself
(network, auth, rate limit — all subclasses the caller never sees). -/
inductive ServiceErr where
  | network : ServiceErr
  | auth : ServiceErr
  | rateLimit : ServiceErr

/-- The exceptions a handler `except Exception` can catch inside a route. -/
inductive PyExn where
  | service : ServiceErr → PyExn
  | keyError : PyExn
  | valueError : PyExn
  | persist : PersistFault → PyExn

/-- HTTP responses produced by the routes. -/
inductive Response where
  | okProcess : Json → Json → Response
  | okSoap : Json → Response
  | okTrue : Response
  | okHistory : Store → Response
  | badRequest : String → Response
  | serverError : String → Response

/-- HTTP status code of a response. -/
def Response.status : Response → Nat
  | .badRequest _ => 400
  | .serverError _ => 500
  | _ => 200

/-- Python `str.strip()`: remove leading and trailing whitespace. -/
def py_strip (s : String) : String :=
  String.mk
    (((s.toList.dropWhile Char.isWhitespace).reverse.dropWhile
        Char.isWhitespace).reverse)

/-- `GET /history` (app.py lines 91-93): returns the full store.  No handler,
so a persistence fault propagates. -/
def get_history (res : Resource) : Except PersistFault (Response × Resource) :=
  match load_db res with
  | Except.error f => Except.error f
  | Except.ok db => Except.ok (Response.okHistory db, res)

/-- `POST /delete-event` (app.py lines 96-108): a falsy id is rejected with
400; otherwise every event with that id is removed and the store rewritten.
No handler, so a persistence fault propagates. -/
def delete_event (res : Resource) (payload_id : Option Nat) :
    Except PersistFault (Response × Resource) :=
  let event_id := payload_id.getD 0
  if event_id == 0 then Except.ok (Response.badRequest "id required", res)
  else
    match load_db res with
    | Except.error f => Except.error f
    | Except.ok db =>
      Except.ok (Response.okTrue,
        save_db ⟨db.events.filter (fun e => e.id != event_id)⟩)

/-- The default Extraction Record substituted at app.py lines 141-145. -/
def defaultExtraction (text : String) : Json :=
  Json.obj [("transcription_en", Json.str text),
            ("symptoms", Json.arr []),
            ("specific_suggestion", Json.str "")]

/-- The default Triage Record substituted at app.py lines 179-183. -/
def defaultTriage : Json :=
  Json.obj [("specialist", Json.str "General Physician"),
            ("reason", Json.str "General evaluation recommended."),
            ("priority", Json.str "low")]

/-- Python `parsed or default`. -/
def orDefault (parsed : Option Json) (dflt : Json) : Json :=
  match parsed with
  | some v => if v.truthy then v else dflt
  | none => dflt

/-- The history context built at app.py lines 148-152: the last 10 events of
the store, filtered to type `symptom`, each reduced to a time/symptom record. -/
def history_context (events : List Event) : List Json :=
  ((events.drop (events.length - 10)).filter
      (fun e => e.type == "symptom")).map
    (fun e => Json.obj [("time", Json.str e.timestamp), ("symptom", e.text)])

/-- The body of the `try` block of `/process-text` (app.py lines 119-195):
extraction call, parse-or-default, store read, history context, the
`extraction["transcription_en"]` subscript, triage call, parse-or-default,
append.  `svcA` receives the user text embedded in the extraction prompt;
`svcB` receives the history context and latest complaint embedded in the
triage prompt. -/
def process_text_try (res : Resource) (text : String)
    (svcA : String → Except ServiceErr String)
    (svcB : List Json → Json → Except ServiceErr String)
    (decode : String → Option Json) (now : String) :
    Except PyExn (Response × Resource) :=
  match svcA text with
  | Except.error e => Except.error (PyExn.service e)
  | Except.ok contentA =>
    let extraction := orDefault (parse_json_safe decode contentA)
      (defaultExtraction text)
    match load_db res with
    | Except.error f => Except.error (PyExn.persist f)
    | Except.ok db =>
      let hctx := history_context db.events
      match extraction.getKey "transcription_en" with
      | none => Except.error PyExn.keyError
      | some transcription =>
        match svcB hctx transcription with
        | Except.error e => Except.error (PyExn.service e)
        | Except.ok contentB =>
          let triage := orDefault (parse_json_safe decode contentB)
            defaultTriage
          match add_event res "symptom" transcription now
              (some (Json.obj [("triage", triage)])) with
          | Except.error f => Except.error (PyExn.persist f)
          | Except.ok (_, res') =>
            Except.ok (Response.okProcess extraction triage, res')

/-- `POST /process-text` (app.py lines 111-199): validate the trimmed text,
run the pipeline, and map any exception in the `try` block to the generic
500 response. -/
def process_text (res : Resource) (payload_text : Option String)
    (svcA : String → Except ServiceErr String)
    (svcB : List Json → Json → Except ServiceErr String)
    (decode : String → Option Json) (now : String) : Response × Resource :=
  let text := py_strip (payload_text.getD "")
  if text.length < 2 then (Response.badRequest "Text too short", res)
  else
    match process_text_try res text svcA svcB decode now with
    | Except.ok r => r
    | Except.error _ => (Response.serverError "AI processing failed", res)

/-- The body of the `try` block of `/generate-soap` (app.py lines 217-240):
store read, last-30 window, synthesis call, parse, and `ValueError` when the
parse yields nothing truthy.  `svc` receives the event window embedded in
the prompt. -/
def generate_soap_try (res : Resource)
    (svc : List Event → Except ServiceErr String)
    (decode : String → Option Json) : Except PyExn (Response × Resource) :=
  match load_db res with
  | Except.error f => Except.error (PyExn.persist f)
  | Except.ok db =>
    let events := db.events.drop (db.events.length - 30)
    match svc events with
    | Except.error e => Except.error (PyExn.service e)
    | Except.ok content =>
      match parse_json_safe decode content with
      | some v =>
        if v.truthy then Except.ok (Response.okSoap v, res)
        else Except.error PyExn.valueError
      | none => Except.error PyExn.valueError

/-- `POST /generate-soap` (app.py lines 215-244): run the synthesis and map
any exception to the generic 500 response. -/
def generate_soap (res : Resource)
    (svc : List Event → Except ServiceErr String)
    (decode : String → Option Json) : Response × Resource :=
  match generate_soap_try res svc decode with
  | Except.ok r => r
  | Except.error _ => (Response.serverError "SOAP generation failed", res)

/-- `POST /add-history` (app.py lines 247-256): a falsy text is rejected
with 400; otherwise a `history` event is appended. -/
def add_history (res : Resource) (payload_text : Option String)
    (now : String) : Except PersistFault (Response × Resource) :=
  match payload_text with
  | none => Except.ok (Response.badRequest "no text", res)
  | some t =>
    if t == "" then Except.ok (Response.badRequest "no text", res)
    else
      match add_event res "history" (Json.str t) now none with
      | Except.error f => Except.error f
      | Except.ok (_, res') => Except.ok (Response.okTrue, res')

/-- Stores reachable from the empty store (absent file, or empty event list)
by the append and delete operations. -/
inductive Reachable : Resource → Prop where
  | absent : Reachable Resource.absent
  | empty : Reachable (Resource.good ⟨[]⟩)
  | append {r r' : Resource} {ty : String} {tx : Json} {now : String}
      {ex : Option Json} {e : Event} :
      Reachable r → add_event r ty tx now ex = Except.ok (e, r') →
      Reachable r'
  | delete {r r' : Resource} {i : Nat} {resp : Response} :
      Reachable r → delete_event r (some i) = Except.ok (resp, r') →
      Reachable r'

/-!
## Helper lemmas
-/

/-- In a strictly increasing event list, every id is bounded by the last one. -/
theorem pairwise_le_getLast? : ∀ {es : List Event} {l : Event},
    List.Pairwise (fun a b => a.id < b.id) es → es.getLast? = some l →
    ∀ a ∈ es, a.id ≤ l.id
  | [], _, _, hl => by simp at hl
  | [b], l, _, hl => by
    intro a ha
    have hbl : b = l := by simpa using hl
    have hab : a = b := by simpa using ha
    subst hbl
    subst hab
    exact Nat.le_refl _
  | b :: c :: u, l, hp, hl => by
    rw [List.getLast?_cons_cons] at hl
    intro a ha
    rcases List.mem_cons.mp ha with rfl | hat
    · have hlm : l ∈ c :: u := by
        rcases List.mem_getLast?_eq_getLast hl with ⟨hne, rfl⟩
        exact List.getLast_mem hne
      exact Nat.le_of_lt ((List.pairwise_cons.mp hp).1 l hlm)
    · exact pairwise_le_getLast? (List.pairwise_cons.mp hp).2 hl a hat

/-- The id computed by `add_event` is strictly above every id already stored. -/
theorem lt_next_id {es : List Event}
    (hp : List.Pairwise (fun a b => a.id < b.id) es) :
    ∀ a ∈ es, a.id < next_id es := by
  intro a ha
  simp only [next_id]
  cases hl : es.getLast? with
  | none =>
    rw [List.getLast?_eq_none_iff] at hl
    subst hl
    cases ha
  | some l =>
    have := pairwise_le_getLast? hp hl a ha
    show a.id < l.id + 1
    omega

/-- Every reachable store has a strictly increasing id sequence. -/
theorem reachable_pairwise : ∀ {r : Resource}, Reachable r →
    ∀ {db : Store}, load_db r = Except.ok db →
    List.Pairwise (fun a b : Event => a.id < b.id) db.events := by
  intro r hr
  induction hr with
  | absent =>
    intro db h
    simp only [load_db, Except.ok.injEq] at h
    subst h
    exact List.Pairwise.nil
  | empty =>
    intro db h
    simp only [load_db, Except.ok.injEq] at h
    subst h
    exact List.Pairwise.nil
  | @append r0 r' ty tx now ex e hr' hadd ih =>
    intro db h
    simp only [add_event] at hadd
    cases hload : load_db r0 with
    | error f => rw [hload] at hadd; cases hadd
    | ok db0 =>
      rw [hload] at hadd
      simp only [save_db, Except.ok.injEq, Prod.mk.injEq] at hadd
      obtain ⟨-, hr'eq⟩ := hadd
      subst hr'eq
      simp only [load_db, Except.ok.injEq] at h
      subst h
      refine List.pairwise_append.mpr ⟨ih hload, List.pairwise_singleton _ _, ?_⟩
      intro a ha b hb
      have hb' : b = ⟨next_id db0.events, ty, tx, now, extra_or_empty ex⟩ := by
        simpa using hb
      subst hb'
      exact lt_next_id (ih hload) a ha
  | @delete r0 r' i resp hr' hdel ih =>
    intro db h
    simp only [delete_event, Option.getD_some] at hdel
    by_cases hi : (i == 0) = true
    · rw [if_pos hi] at hdel
      simp only [Except.ok.injEq, Prod.mk.injEq] at hdel
      obtain ⟨-, hr'eq⟩ := hdel
      subst hr'eq
      exact ih h
    · rw [if_neg hi] at hdel
      cases hload : load_db r0 with
      | error f => rw [hload] at hdel; cases hdel
      | ok db0 =>
        rw [hload] at hdel
        simp only [save_db, Except.ok.injEq, Prod.mk.injEq] at hdel
        obtain ⟨-, hr'eq⟩ := hdel
        subst hr'eq
        simp only [load_db, Except.ok.injEq] at h
        subst h
        exact (ih hload).sublist (List.filter_sublist _)

/-!
## C1
-/

/-- **C1**: in every store reachable from the empty store by append and delete,
event ids are strictly increasing across the stored sequence; on a non-empty
store `add_event` produces an id strictly greater than every existing id and
equal to the maximum existing id plus 1, and on the empty store the first
append yields id 1. -/
theorem append_id_strictly_increasing {r : Resource} (hr : Reachable r)
    {db : Store} (hload : load_db r = Except.ok db) :
    List.Pairwise (fun a b : Event => a.id < b.id) db.events ∧
    ∀ ty tx now ex e r', add_event r ty tx now ex = Except.ok (e, r') →
      (db.events = [] → e.id = 1) ∧
      (db.events ≠ [] →
        (∀ a ∈ db.events, a.id < e.id) ∧
        ∃ m ∈ db.events, (∀ a ∈ db.events, a.id ≤ m.id) ∧ e.id = m.id + 1) := by
  have hp := reachable_pairwise hr hload
  refine ⟨hp, ?_⟩
  intro ty tx now ex e r' hadd
  simp only [add_event, hload, save_db, Except.ok.injEq, Prod.mk.injEq] at hadd
  obtain ⟨he, -⟩ := hadd
  subst he
  constructor
  · intro hnil
    simp [next_id, hnil]
  · intro hne
    have hl : db.events.getLast? = some (db.events.getLast hne) :=
      List.getLast?_eq_getLast_of_ne_nil hne
    constructor
    · intro a ha
      exact lt_next_id hp a ha
    · refine ⟨db.events.getLast hne, List.getLast_mem hne,
        pairwise_le_getLast? hp hl, ?_⟩
      simp [next_id, hl]

/-- A concrete reachable one-event store, for the C1 witness. -/
def ev1 : Event := ⟨1, "symptom", Json.str "hi", "T0", Json.obj []⟩

/-- Second event appended on top of `ev1`, for the C1 witness. -/
def ev2 : Event := ⟨2, "symptom", Json.str "x", "T1", Json.obj []⟩

/-- The one-event store holding `ev1`. -/
def store1 : Store := ⟨[ev1]⟩

/-- `store1` arises from the empty store by one append. -/
theorem store1_reachable : Reachable (Resource.good store1) :=
  Reachable.append Reachable.empty
    (rfl : add_event (Resource.good ⟨[]⟩) "symptom" (Json.str "hi") "T0" none
      = Except.ok (ev1, Resource.good store1))

/-- Witness for C1 at the concrete reachable store `store1`. -/
theorem append_id_strictly_increasing_witness :
    List.Pairwise (fun a b : Event => a.id < b.id) store1.events ∧
    (∀ a ∈ store1.events, a.id < ev2.id) ∧
    ∃ m ∈ store1.events, (∀ a ∈ store1.events, a.id ≤ m.id) ∧
      ev2.id = m.id + 1 := by
  have h := append_id_strictly_increasing store1_reachable
    (rfl : load_db (Resource.good store1) = Except.ok store1)
  have h2 := (h.2 "symptom" (Json.str "x") "T1" none ev2
      (Resource.good ⟨[ev1, ev2]⟩) rfl).2 (List.cons_ne_nil ev1 [])
  exact ⟨h.1, h2.1, h2.2⟩

/-!
## C2
-/

/-- Modelled from the spec's words, for comparison with `history_context`:
the last 10 events **of type symptom** (in original order), each reduced to a
time/symptom record. -/
def spec_history_context (events : List Event) : List Json :=
  ((events.filter (fun e => e.type == "symptom")).drop
      ((events.filter (fun e => e.type == "symptom")).length - 10)).map
    (fun e => Json.obj [("time", Json.str e.timestamp), ("symptom", e.text)])

/-- A store whose last 10 events are all of type `history`, with one earlier
`symptom` event. -/
def exEvents : List Event :=
  (⟨1, "symptom", Json.str "cough", "T1", Json.obj []⟩ : Event) ::
    (List.range 10).map
      (fun k => ⟨k + 2, "history", Json.str "h", "T", Json.obj []⟩)

/-- **C2 (counterexample)**: on `exEvents` the code's history context is empty
(the last 10 events are all `history`-type), while the last 10 symptom-type
events reduce to one record — so the context is not "exactly the last 10
events of type symptom". -/
theorem history_context_counterexample :
    history_context exEvents ≠ spec_history_context exEvents := by
  intro h
  have h1 : (history_context exEvents).length = 0 := rfl
  have h2 : (spec_history_context exEvents).length = 1 := rfl
  rw [h, h2] at h1
  exact Nat.one_ne_zero h1

/-- **C2 (amended)**: the history context passed to the triage stage consists
of the symptom-type events among the last 10 events of the store (not
necessarily the last 10 symptom events): it has at most 10 entries and is a
suffix of the chronological reduction of all symptom-type events — hence in
original order and free of history-type events. -/
theorem history_context_symptom_suffix (events : List Event) :
    (history_context events).length ≤ 10 ∧
    List.IsSuffix (history_context events)
      ((events.filter (fun e => e.type == "symptom")).map
        (fun e => Json.obj [("time", Json.str e.timestamp),
          ("symptom", e.text)])) := by
  constructor
  · simp only [history_context, List.length_map]
    refine Nat.le_trans (List.length_filter_le _ _) ?_
    rw [List.length_drop]
    omega
  · refine ⟨((events.take (events.length - 10)).filter
        (fun e => e.type == "symptom")).map
      (fun e => Json.obj [("time", Json.str e.timestamp),
        ("symptom", e.text)]), ?_⟩
    simp only [history_context]
    rw [← List.map_append, ← List.filter_append, List.take_append_drop]

/-!
## C4
-/

/-- If `firstIdx` finds nothing, no character satisfies the predicate. -/
theorem firstIdx_none {p : Char → Bool} :
    ∀ {cs : List Char}, firstIdx p cs = none →
      ∀ (k : Nat) (c : Char), cs[k]? = some c → p c = false
  | [], _, k, c, hk => by simp at hk
  | c0 :: cs, h, k, c, hk => by
    simp only [firstIdx] at h
    by_cases hp : p c0 = true
    · rw [if_pos hp] at h
      cases h
    · rw [if_neg hp] at h
      cases k with
      | zero =>
        simp only [List.getElem?_cons_zero, Option.some.injEq] at hk
        subst hk
        simpa using hp
      | succ k =>
        simp only [List.getElem?_cons_succ] at hk
        cases hrec : firstIdx p cs with
        | none => exact firstIdx_none hrec k c hk
        | some j => rw [hrec] at h; cases h

/-- If `lastIdx` finds nothing, no character satisfies the predicate. -/
theorem lastIdx_none {p : Char → Bool} :
    ∀ {cs : List Char}, lastIdx p cs = none →
      ∀ (k : Nat) (c : Char), cs[k]? = some c → p c = false
  | [], _, k, c, hk => by simp at hk
  | c0 :: cs, h, k, c, hk => by
    simp only [lastIdx] at h
    cases hrec : lastIdx p cs with
    | some j => rw [hrec] at h; cases h
    | none =>
      rw [hrec] at h
      by_cases hp : p c0 = true
      · rw [if_pos hp] at h; cases h
      · cases k with
        | zero =>
          simp only [List.getElem?_cons_zero, Option.some.injEq] at hk
          subst hk
          simpa using hp
        | succ k =>
          simp only [List.getElem?_cons_succ] at hk
          exact lastIdx_none hrec k c hk

/-- `firstIdx` returns the least index satisfying the predicate. -/
theorem firstIdx_some {p : Char → Bool} :
    ∀ {cs : List Char} {i : Nat}, firstIdx p cs = some i →
      (∃ c, cs[i]? = some c ∧ p c = true) ∧
      ∀ (k : Nat), k < i → ∀ (c : Char), cs[k]? = some c → p c = false
  | [], _, h => by simp [firstIdx] at h
  | c0 :: cs, i, h => by
    simp only [firstIdx] at h
    by_cases hp : p c0 = true
    · rw [if_pos hp] at h
      simp only [Option.some.injEq] at h
      subst h
      exact ⟨⟨c0, by simp, hp⟩, fun k hk => by omega⟩
    · rw [if_neg hp] at h
      cases hrec : firstIdx p cs with
      | none => rw [hrec] at h; cases h
      | some j =>
        rw [hrec] at h
        simp only [Option.map_some', Option.some.injEq] at h
        subst h
        obtain ⟨⟨c, hc, hpc⟩, hmin⟩ := firstIdx_some hrec
        refine ⟨⟨c, by simpa using hc, hpc⟩, ?_⟩
        intro k hk d hd
        cases k with
        | zero =>
          simp only [List.getElem?_cons_zero, Option.some.injEq] at hd
          subst hd
          simpa using hp
        | succ k =>
          simp only [List.getElem?_cons_succ] at hd
          exact hmin k (by omega) d hd

/-- `lastIdx` returns the greatest index satisfying the predicate. -/
theorem lastIdx_some {p : Char → Bool} :
    ∀ {cs : List Char} {j : Nat}, lastIdx p cs = some j →
      (∃ c, cs[j]? = some c ∧ p c = true) ∧
      ∀ (k : Nat), j < k → ∀ (c : Char), cs[k]? = some c → p c = false
  | [], _, h => by simp [lastIdx] at h
  | c0 :: cs, j, h => by
    simp only [lastIdx] at h
    cases hrec : lastIdx p cs with
    | some j' =>
      rw [hrec] at h
      simp only [Option.some.injEq] at h
      subst h
      obtain ⟨⟨c, hc, hpc⟩, hmax⟩ := lastIdx_some hrec
      refine ⟨⟨c, by simpa using hc, hpc⟩, ?_⟩
      intro k hk d hd
      cases k with
      | zero => omega
      | succ k =>
        simp only [List.getElem?_cons_succ] at hd
        exact hmax k (by omega) d hd
    | none =>
      rw [hrec] at h
      by_cases hp : p c0 = true
      · rw [if_pos hp] at h
        simp only [Option.some.injEq] at h
        subst h
        refine ⟨⟨c0, by simp, hp⟩, ?_⟩
        intro k hk d hd
        cases k with
        | zero => omega
        | succ k =>
          simp only [List.getElem?_cons_succ] at hd
          exact lastIdx_none hrec k d hd
      · rw [if_neg hp] at h
        cases h

/-- On direct-decode failure, `parse_json_safe` is decided by `braceSubstring`. -/
theorem parse_json_safe_eq_braceSubstring (decode : String → Option Json)
    (text : String) (hnone : decode text = none) :
    parse_json_safe decode text =
      match braceSubstring text.toList with
      | some sub => decode (String.mk sub)
      | none => none := by
  unfold parse_json_safe
  rw [hnone]

/-- **C4**: `parse_json_safe` is total and never raises; it returns the direct
decode when the whole text decodes, otherwise it decodes exactly the substring
running from the first opening brace through the last closing brace (when the
latter comes after the former), and otherwise returns `none`. -/
theorem parse_json_safe_spec (decode : String → Option Json) (text : String) :
    (∀ v, decode text = some v → parse_json_safe decode text = some v) ∧
    (decode text = none →
      (∃ i j : Nat, i < j ∧
          text.toList[i]? = some '{' ∧
          (∀ k, k < i → text.toList[k]? ≠ some '{') ∧
          text.toList[j]? = some '}' ∧
          (∀ k, j < k → text.toList[k]? ≠ some '}') ∧
          parse_json_safe decode text
            = decode (String.mk ((text.toList.drop i).take (j - i + 1)))) ∨
      (parse_json_safe decode text = none ∧
        ¬∃ i j : Nat, i < j ∧ text.toList[i]? = some '{' ∧
          text.toList[j]? = some '}')) := by
  constructor
  · intro v hv
    simp [parse_json_safe, hv]
  · intro hnone
    have hps := parse_json_safe_eq_braceSubstring decode text hnone
    cases hf : firstIdx (fun c => c == '{') text.toList with
    | none =>
      right
      have hbs : braceSubstring text.toList = none := by
        unfold braceSubstring
        rw [hf]
      refine ⟨by rw [hps, hbs], ?_⟩
      rintro ⟨i, j, _, hi, -⟩
      have := firstIdx_none hf i '{' hi
      simp at this
    | some i =>
      cases hl : lastIdx (fun c => c == '}') text.toList with
      | none =>
        right
        have hbs : braceSubstring text.toList = none := by
          unfold braceSubstring
          rw [hf, hl]
        refine ⟨by rw [hps, hbs], ?_⟩
        rintro ⟨i', j', -, -, hj⟩
        have := lastIdx_none hl j' '}' hj
        simp at this
      | some j =>
        obtain ⟨⟨ci, hci, hpci⟩, hmin⟩ := firstIdx_some hf
        obtain ⟨⟨cj, hcj, hpcj⟩, hmax⟩ := lastIdx_some hl
        have hci' : text.toList[i]? = some '{' := by
          have hcieq : ci = '{' := by simpa using hpci
          rwa [hcieq] at hci
        have hcj' : text.toList[j]? = some '}' := by
          have hcjeq : cj = '}' := by simpa using hpcj
          rwa [hcjeq] at hcj
        by_cases hij : i < j
        · left
          have hbs : braceSubstring text.toList
              = some ((text.toList.drop i).take (j - i + 1)) := by
            unfold braceSubstring
            rw [hf, hl]
            show (if i < j then some ((text.toList.drop i).take (j - i + 1))
              else none) = _
            rw [if_pos hij]
          refine ⟨i, j, hij, hci', ?_, hcj', ?_, ?_⟩
          · intro k hk hcontra
            have := hmin k hk '{' hcontra
            simp at this
          · intro k hk hcontra
            have := hmax k hk '}' hcontra
            simp at this
          · rw [hps, hbs]
        · right
          have hbs : braceSubstring text.toList = none := by
            unfold braceSubstring
            rw [hf, hl]
            show (if i < j then some ((text.toList.drop i).take (j - i + 1))
              else none) = _
            rw [if_neg hij]
          refine ⟨by rw [hps, hbs], ?_⟩
          rintro ⟨i', j', hij', hi', hj'⟩
          have hii' : i ≤ i' := by
            by_contra hlt
            push_neg at hlt
            have := hmin i' hlt '{' hi'
            simp at this
          have hjj' : j' ≤ j := by
            by_contra hlt
            push_neg at hlt
            have := hmax j' hlt '}' hj'
            simp at this
          omega

/-- Witness for C4: a decoder that accepts exactly the text `"42"` makes
`parse_json_safe` return the decoded value unchanged. -/
theorem parse_json_safe_spec_witness :
    parse_json_safe (fun s => if s == "42" then some (Json.num 42) else none)
      "42" = some (Json.num 42) :=
  (parse_json_safe_spec (fun s => if s == "42" then some (Json.num 42)
    else none) "42").1 (Json.num 42) rfl

/-!
## C3
-/

/-- A raw completion on which the parse-or-default step falls back: either the
parse produced nothing, or it produced a falsy value. -/
def isFallback : Option Json → Bool
  | none => true
  | some v => !v.truthy

/-- Python `parsed or default` yields the default on fallback-triggering
parses. -/
theorem orDefault_of_isFallback {parsed : Option Json} {d : Json}
    (h : isFallback parsed = true) : orDefault parsed d = d := by
  cases parsed with
  | none => rfl
  | some v =>
    simp only [isFallback, Bool.not_eq_true'] at h
    simp [orDefault, h]

/-- **C3**: with valid input text and fallback-triggering service output in
both stages, `/process-text` returns 200 with `ok`, the default extraction
record carrying the trimmed input as `transcription_en`, empty symptoms, empty
suggestion, and the default triage record; and it appends exactly one
`symptom` event whose text is the `transcription_en` and whose `extra` is the
triage record under the key `triage`. -/
theorem process_text_fallback_defaults (db : Store) (ptext : String)
    (svcA : String → Except ServiceErr String)
    (svcB : List Json → Json → Except ServiceErr String)
    (decode : String → Option Json) (now : String) (cA cB : String)
    (hlen : 2 ≤ (py_strip ptext).length)
    (hA : svcA (py_strip ptext) = Except.ok cA)
    (hpA : isFallback (parse_json_safe decode cA) = true)
    (hB : svcB (history_context db.events) (Json.str (py_strip ptext))
        = Except.ok cB)
    (hpB : isFallback (parse_json_safe decode cB) = true) :
    process_text (Resource.good db) (some ptext) svcA svcB decode now
      = (Response.okProcess
          (Json.obj [("transcription_en", Json.str (py_strip ptext)),
                     ("symptoms", Json.arr []),
                     ("specific_suggestion", Json.str "")])
          (Json.obj [("specialist", Json.str "General Physician"),
                     ("reason", Json.str "General evaluation recommended."),
                     ("priority", Json.str "low")]),
         Resource.good ⟨db.events ++
           [⟨next_id db.events, "symptom", Json.str (py_strip ptext), now,
             Json.obj [("triage", defaultTriage)]⟩]⟩) := by
  have eA : orDefault (parse_json_safe decode cA)
      (defaultExtraction (py_strip ptext))
      = defaultExtraction (py_strip ptext) := orDefault_of_isFallback hpA
  have eB : orDefault (parse_json_safe decode cB) defaultTriage
      = defaultTriage := orDefault_of_isFallback hpB
  have hkey : (defaultExtraction (py_strip ptext)).getKey "transcription_en"
      = some (Json.str (py_strip ptext)) := rfl
  simp only [process_text, Option.getD_some]
  rw [if_neg (by omega)]
  simp only [process_text_try, hA, eA, load_db, hkey, hB, eB, add_event,
    save_db, extra_or_empty]
  simp [defaultExtraction, defaultTriage, Json.truthy]

/-- Witness for C3: empty store, text `"headache"`, garbage completions, and
a decoder that always fails. -/
theorem process_text_fallback_defaults_witness :
    2 ≤ (py_strip "headache").length ∧
    isFallback (parse_json_safe (fun _ => none) "junk") = true ∧
    process_text (Resource.good ⟨[]⟩) (some "headache")
      (fun _ => Except.ok "junk") (fun _ _ => Except.ok "junk")
      (fun _ => none) "T"
      = (Response.okProcess
          (Json.obj [("transcription_en", Json.str (py_strip "headache")),
                     ("symptoms", Json.arr []),
                     ("specific_suggestion", Json.str "")])
          (Json.obj [("specialist", Json.str "General Physician"),
                     ("reason", Json.str "General evaluation recommended."),
                     ("priority", Json.str "low")]),
         Resource.good ⟨([] : List Event) ++
           [⟨next_id [], "symptom", Json.str (py_strip "headache"), "T",
             Json.obj [("triage", defaultTriage)]⟩]⟩) :=
  ⟨by decide, rfl,
    process_text_fallback_defaults ⟨[]⟩ "headache" _ _ _ "T" "junk" "junk"
      (by decide) rfl rfl rfl rfl⟩

/-!
## C5
-/

/-- **C5**: if the inference service raises in either stage of the
`/process-text` pipeline (with valid input text), the route returns the single
generic 500 response, independent of which exception was raised, and the
store is left unchanged — no event is written. -/
theorem process_text_service_error_generic (db : Store) (ptext : String)
    (svcA : String → Except ServiceErr String)
    (svcB : List Json → Json → Except ServiceErr String)
    (decode : String → Option Json) (now : String)
    (hlen : 2 ≤ (py_strip ptext).length)
    (hfail : (∃ e, svcA (py_strip ptext) = Except.error e) ∨
        ∀ h t, ∃ e, svcB h t = Except.error e) :
    process_text (Resource.good db) (some ptext) svcA svcB decode now
      = (Response.serverError "AI processing failed", Resource.good db) := by
  simp only [process_text, Option.getD_some]
  rw [if_neg (by omega)]
  rcases hfail with ⟨e, he⟩ | hB
  · simp [process_text_try, he]
  · cases hA : svcA (py_strip ptext) with
    | error e => simp [process_text_try, hA]
    | ok cA =>
      cases hkey : (orDefault (parse_json_safe decode cA)
          (defaultExtraction (py_strip ptext))).getKey "transcription_en" with
      | none => simp [process_text_try, hA, load_db, hkey]
      | some t =>
        obtain ⟨e, heB⟩ := hB (history_context db.events) t
        simp [process_text_try, hA, load_db, hkey, heB]

/-- Witness for C5: the extraction-stage call raises a network error. -/
theorem process_text_service_error_generic_witness :
    process_text (Resource.good ⟨[]⟩) (some "headache")
      (fun _ => Except.error ServiceErr.network) (fun _ _ => Except.ok "x")
      (fun _ => none) "T"
      = (Response.serverError "AI processing failed", Resource.good ⟨[]⟩) :=
  process_text_service_error_generic ⟨[]⟩ "headache" _ _ _ "T" (by decide)
    (Or.inl ⟨ServiceErr.network, rfl⟩)

/-!
## C6
-/

/-- **C6**: `/generate-soap` never writes to the store — the resource after
the call equals the resource before it for every store state and service
output — and when the resilient parser yields absence on the service output
the route returns the 500 response instead of substituting a default. -/
theorem generate_soap_frame_and_parse_failure (res : Resource)
    (svc : List Event → Except ServiceErr String)
    (decode : String → Option Json) :
    (generate_soap res svc decode).2 = res ∧
    ∀ db content, load_db res = Except.ok db →
      svc (db.events.drop (db.events.length - 30)) = Except.ok content →
      parse_json_safe decode content = none →
      generate_soap res svc decode
        = (Response.serverError "SOAP generation failed", res) := by
  constructor
  · cases hdb : load_db res with
    | error f => simp [generate_soap, generate_soap_try, hdb]
    | ok db =>
      cases hc : svc (db.events.drop (db.events.length - 30)) with
      | error e => simp [generate_soap, generate_soap_try, hdb, hc]
      | ok content =>
        cases hp : parse_json_safe decode content with
        | none => simp [generate_soap, generate_soap_try, hdb, hc, hp]
        | some v =>
          by_cases hv : v.truthy = true
          · simp [generate_soap, generate_soap_try, hdb, hc, hp, hv]
          · simp [generate_soap, generate_soap_try, hdb, hc, hp, hv]
  · intro db content hdb hc hp
    simp [generate_soap, generate_soap_try, hdb, hc, hp]

/-- Witness for C6: empty store, unparseable completion. -/
theorem generate_soap_frame_and_parse_failure_witness :
    generate_soap (Resource.good ⟨[]⟩) (fun _ => Except.ok "garbage")
      (fun _ => none)
      = (Response.serverError "SOAP generation failed",
         Resource.good ⟨[]⟩) :=
  (generate_soap_frame_and_parse_failure (Resource.good ⟨[]⟩)
    (fun _ => Except.ok "garbage") (fun _ => none)).2 ⟨[]⟩ "garbage"
    rfl rfl rfl

/-!
## C7
-/

/-- **C7**: a request whose text trims to fewer than 2 characters (including
a missing text field) is rejected with 400 before any inference call — the
result does not depend on the service at all — and the store is unchanged. -/
theorem process_text_short_text_rejected (res : Resource)
    (ptext : Option String)
    (svcA : String → Except ServiceErr String)
    (svcB : List Json → Json → Except ServiceErr String)
    (decode : String → Option Json) (now : String)
    (hshort : (py_strip (ptext.getD "")).length < 2) :
    process_text res ptext svcA svcB decode now
      = (Response.badRequest "Text too short", res) ∧
    (process_text res ptext svcA svcB decode now).1.status = 400 := by
  have h : process_text res ptext svcA svcB decode now
      = (Response.badRequest "Text too short", res) := by
    simp only [process_text]
    rw [if_pos hshort]
  exact ⟨h, by rw [h]; rfl⟩

/-- Witness for C7: the one-character text `"a"`. -/
theorem process_text_short_text_rejected_witness :
    process_text (Resource.good ⟨[]⟩) (some "a") (fun _ => Except.ok "x")
      (fun _ _ => Except.ok "y") (fun _ => none) "T"
      = (Response.badRequest "Text too short", Resource.good ⟨[]⟩) :=
  (process_text_short_text_rejected (Resource.good ⟨[]⟩) (some "a") _ _ _ "T"
    (by decide)).1

/-!
## C8
-/

/-- **C8**: deleting a (positive) id and re-loading yields a store with no
event of that id, all other events kept unchanged, in their original order
(a sublist of the original sequence); when no event carries the id, the event
sequence is untouched and the call still succeeds. -/
theorem delete_event_removes_id (db : Store) (i : Nat) (hi : 1 ≤ i) :
    ∃ r', delete_event (Resource.good db) (some i)
        = Except.ok (Response.okTrue, r') ∧
      ∃ db', load_db r' = Except.ok db' ∧
        (∀ e ∈ db'.events, e.id ≠ i) ∧
        List.Sublist db'.events db.events ∧
        (∀ e ∈ db.events, e.id ≠ i → e ∈ db'.events) ∧
        ((∀ e ∈ db.events, e.id ≠ i) → db'.events = db.events) := by
  refine ⟨save_db ⟨db.events.filter (fun e => e.id != i)⟩, ?_, ?_⟩
  · simp only [delete_event, Option.getD_some]
    rw [if_neg (by simp; omega)]
    rfl
  · refine ⟨⟨db.events.filter (fun e => e.id != i)⟩, rfl, ?_, ?_, ?_, ?_⟩
    · intro e he
      have := (List.mem_filter.mp he).2
      simpa using this
    · exact List.filter_sublist _
    · intro e he hne
      exact List.mem_filter.mpr ⟨he, by simpa using hne⟩
    · intro hall
      show db.events.filter (fun e => e.id != i) = db.events
      refine List.filter_eq_self.mpr ?_
      intro e he
      simpa using hall e he

/-- Witness for C8: deleting id 1 from the one-event store `store1`. -/
theorem delete_event_removes_id_witness :
    ∃ r', delete_event (Resource.good store1) (some 1)
        = Except.ok (Response.okTrue, r') ∧
      ∃ db', load_db r' = Except.ok db' ∧
        (∀ e ∈ db'.events, e.id ≠ 1) ∧
        List.Sublist db'.events store1.events ∧
        (∀ e ∈ store1.events, e.id ≠ 1 → e ∈ db'.events) ∧
        ((∀ e ∈ store1.events, e.id ≠ 1) → db'.events = store1.events) :=
  delete_event_removes_id store1 1 (by decide)

/-!
## C9
-/

/-- **C9 (counterexample)**: with a corrupt backing resource, `/process-text`
does not let the `IOError` propagate — the blanket handler catches it and
converts it into the generic 500 error response. -/
theorem process_text_catches_persist_fault :
    process_text Resource.corrupt (some "headache") (fun _ => Except.ok "x")
      (fun _ _ => Except.ok "y") (fun _ => none) "T"
      = (Response.serverError "AI processing failed", Resource.corrupt) := rfl

/-- **C9 (amended)**: a durable-storage read fault propagates unhandled out of
the history and delete operations, but inside `/process-text` and
`/generate-soap` it is caught by the blanket exception handler and converted
into the respective generic 500 error response. -/
theorem persist_fault_propagation (i : Nat) (hi : 1 ≤ i) (ptext : String)
    (hlen : 2 ≤ (py_strip ptext).length)
    (svcA : String → Except ServiceErr String)
    (svcB : List Json → Json → Except ServiceErr String)
    (svcS : List Event → Except ServiceErr String)
    (decode : String → Option Json) (now : String) :
    get_history Resource.corrupt = Except.error PersistFault.ioError ∧
    delete_event Resource.corrupt (some i)
      = Except.error PersistFault.ioError ∧
    process_text Resource.corrupt (some ptext) svcA svcB decode now
      = (Response.serverError "AI processing failed", Resource.corrupt) ∧
    generate_soap Resource.corrupt svcS decode
      = (Response.serverError "SOAP generation failed", Resource.corrupt) := by
  refine ⟨rfl, ?_, ?_, rfl⟩
  · simp only [delete_event, Option.getD_some]
    rw [if_neg (by simp; omega)]
    rfl
  · simp only [process_text, Option.getD_some]
    rw [if_neg (by omega)]
    cases hA : svcA (py_strip ptext) with
    | error e => simp [process_text_try, hA]
    | ok cA => simp [process_text_try, hA, load_db]

/-- Witness for C9 (amended): id 1 and text `"headache"`. -/
theorem persist_fault_propagation_witness :
    get_history Resource.corrupt = Except.error PersistFault.ioError ∧
    delete_event Resource.corrupt (some 1)
      = Except.error PersistFault.ioError ∧
    process_text Resource.corrupt (some "headache")
      (fun _ => Except.ok "x") (fun _ _ => Except.ok "y")
      (fun _ => none) "T"
      = (Response.serverError "AI processing failed", Resource.corrupt) ∧
    generate_soap Resource.corrupt (fun _ => Except.ok "z") (fun _ => none)
      = (Response.serverError "SOAP generation failed", Resource.corrupt) :=
  persist_fault_propagation 1 (by decide) "headache" (by decide) _ _ _ _ "T"

/-!
## C10
-/

/-- **C10**: when the extraction-stage output parses to a truthy JSON value
that is not an object carrying `transcription_en` (e.g. a non-empty array),
no fallback is substituted; the subscript raises, the blanket handler turns
it into the generic 500 response, and no event is appended. -/
theorem process_text_nonobject_extraction_fails (db : Store) (ptext : String)
    (svcA : String → Except ServiceErr String)
    (svcB : List Json → Json → Except ServiceErr String)
    (decode : String → Option Json) (now : String) (cA : String) (v : Json)
    (hlen : 2 ≤ (py_strip ptext).length)
    (hA : svcA (py_strip ptext) = Except.ok cA)
    (hparse : parse_json_safe decode cA = some v)
    (htruthy : v.truthy = true)
    (hkey : v.getKey "transcription_en" = none) :
    process_text (Resource.good db) (some ptext) svcA svcB decode now
      = (Response.serverError "AI processing failed", Resource.good db) := by
  have hex : orDefault (parse_json_safe decode cA)
      (defaultExtraction (py_strip ptext)) = v := by
    rw [hparse]
    simp [orDefault, htruthy]
  simp only [process_text, Option.getD_some]
  rw [if_neg (by omega)]
  simp [process_text_try, hA, hex, load_db, hkey]

/-- Witness for C10: the completion `"[1]"` decoding to the non-empty array
`[1]`, which is truthy yet has no `transcription_en` key. -/
theorem process_text_nonobject_extraction_fails_witness :
    parse_json_safe
        (fun s => if s == "[1]" then some (Json.arr [Json.num 1]) else none)
        "[1]" = some (Json.arr [Json.num 1]) ∧
    (Json.arr [Json.num 1]).truthy = true ∧
    (Json.arr [Json.num 1]).getKey "transcription_en" = none ∧
    process_text (Resource.good ⟨[]⟩) (some "headache")
      (fun _ => Except.ok "[1]") (fun _ _ => Except.ok "y")
      (fun s => if s == "[1]" then some (Json.arr [Json.num 1]) else none) "T"
      = (Response.serverError "AI processing failed", Resource.good ⟨[]⟩) :=
  ⟨rfl, rfl, rfl,
    process_text_nonobject_extraction_fails ⟨[]⟩ "headache" _ _ _ "T" "[1]"
      (Json.arr [Json.num 1]) (by decide) rfl rfl rfl rfl⟩

end MediMind
